import Mathlib

/-!
Verification of the BirdSeed CSV-to-database seeder (src/src/main.go).

The Go program is embedded shallowly: pure parsing helpers become Lean
functions on strings and character lists; file and database effects are
modelled by an explicit environment record mapping file names to their
parsed CSV contents and tickers to existence-count query results; machine
integers become Int with explicit range checks; Go panics (out-of-bounds
slice indexing), returned errors, and log.Fatal process exits are the
three failure constructors of an Outcome type.  Prices are modelled as
exact rationals: no claim under verification depends on float64 rounding,
only on which column feeds which field and on parse success or failure.
-/

namespace BirdSeed

/-- A calendar date, modelling the date part of a Go time.Time value
produced by time.Parse with a date-only layout. -/
structure Date where
  year : Nat
  month : Nat
  day : Nat
deriving DecidableEq, Repr

/-- Numeric value of a list of decimal digit characters, most significant
first. -/
def digitsToNat (l : List Char) : Nat :=
  l.foldl (fun a c => a * 10 + (c.toNat - 48)) 0

/-- Leap-year rule of the proleptic Gregorian calendar, as used by Go
time.Parse when validating the day of the month. -/
def isLeap (y : Nat) : Bool :=
  (y % 4 == 0 && y % 100 != 0) || y % 400 == 0

/-- Number of days in a month, as validated by Go time.Parse. -/
def daysInMonth (y m : Nat) : Nat :=
  if m = 2 then (if isLeap y then 29 else 28)
  else if m = 4 ∨ m = 6 ∨ m = 9 ∨ m = 11 then 30
  else 31

/-- Models time.Parse(layoutISO, s) with layoutISO = "2006-01-02": exactly
four year digits, a dash, two month digits, a dash, two day digits, with
the month in 1..12 and the day valid for that month; anything else fails. -/
def parseISO (s : String) : Option Date :=
  match s.data with
  | [y1, y2, y3, y4, c1, m1, m2, c2, d1, d2] =>
    if c1 = '-' ∧ c2 = '-' ∧ ([y1, y2, y3, y4, m1, m2, d1, d2].all Char.isDigit) then
      let y := digitsToNat [y1, y2, y3, y4]
      let m := digitsToNat [m1, m2]
      let d := digitsToNat [d1, d2]
      if 1 ≤ m ∧ m ≤ 12 ∧ 1 ≤ d ∧ d ≤ daysInMonth y m then some ⟨y, m, d⟩ else none
    else none
  | _ => none

/-- Models time.Parse(layoutUS, s) with layoutUS = "01/02/2006": two month
digits, a slash, two day digits, a slash, four year digits. -/
def parseUS (s : String) : Option Date :=
  match s.data with
  | [m1, m2, c1, d1, d2, c2, y1, y2, y3, y4] =>
    if c1 = '/' ∧ c2 = '/' ∧ ([y1, y2, y3, y4, m1, m2, d1, d2].all Char.isDigit) then
      let y := digitsToNat [y1, y2, y3, y4]
      let m := digitsToNat [m1, m2]
      let d := digitsToNat [d1, d2]
      if 1 ≤ m ∧ m ≤ 12 ∧ 1 ≤ d ∧ d ≤ daysInMonth y m then some ⟨y, m, d⟩ else none
    else none
  | _ => none

/-- Left-pads the decimal representation of n with zeros to width w,
modelling the zero-padded fields of Go time.Format("2006-01-02"). -/
def padZeros (w n : Nat) : String :=
  String.mk (List.replicate (w - (toString n).length) '0') ++ toString n

/-- Models Date.Format("2006-01-02"): YYYY-MM-DD with zero padding. -/
def formatISO (d : Date) : String :=
  padZeros 4 d.year ++ "-" ++ padZeros 2 d.month ++ "-" ++ padZeros 2 d.day

/-- Models strconv.ParseFloat(s, 64) on plain decimal notation (optional
sign, integer digits, optional fractional digits, at least one digit in
all), returning the exact rational value.  Exponent, hexadecimal and
infinity forms accepted by Go do not occur in this data and no claim
depends on them; float64 rounding is deliberately not modelled since every
claim quantifies only over parse success and field routing. -/
def parseFloat (s : String) : Option Rat :=
  let signBody : Int × List Char :=
    match s.data with
    | '-' :: t => (-1, t)
    | '+' :: t => (1, t)
    | t => (1, t)
  let sign := signBody.1
  let body := signBody.2
  match body.splitOn '.' with
  | [ip] =>
    if ip ≠ [] ∧ ip.all Char.isDigit then
      some (Rat.divInt (sign * (digitsToNat ip : Int)) 1)
    else none
  | [ip, fp] =>
    if (ip ++ fp) ≠ [] ∧ (ip ++ fp).all Char.isDigit then
      some (Rat.divInt (sign * (digitsToNat (ip ++ fp) : Int)) ((10 : Int) ^ fp.length))
    else none
  | _ => none

/-- Models strconv.ParseInt(s, 10, 64): optional sign, non-empty decimal
digits, failing when the value does not fit a 64-bit two-complement
integer. -/
def parseInt64 (s : String) : Option Int :=
  let signBody : Int × List Char :=
    match s.data with
    | '-' :: t => (-1, t)
    | '+' :: t => (1, t)
    | t => (1, t)
  let sign := signBody.1
  let body := signBody.2
  if body ≠ [] ∧ body.all Char.isDigit then
    let v : Int := sign * (digitsToNat body : Int)
    if -(2 ^ 63) ≤ v ∧ v ≤ 2 ^ 63 - 1 then some v else none
  else none

/-- Embeds func clean(s string) string, which is
strings.Replace(s, "$", "", -1): every dollar sign is removed. -/
def clean (s : String) : String :=
  String.mk (s.data.filter (fun c => c ≠ '$'))

/-- Embeds func parse(s string) (float64, error), a thin wrapper around
strconv.ParseFloat(s, 64). -/
def parse (s : String) : Option Rat :=
  parseFloat s

/-- Embeds the Candle struct.  ID is never set by the seeder and stays at
its zero value. -/
structure Candle where
  ID : Int := 0
  Ticker : String
  Date : Date
  Open : Rat
  Close : Rat
  High : Rat
  Low : Rat
  Volume : Int
deriving DecidableEq, Repr

/-- Result of a stage of the Go program: a value, a returned error
(carrying the offending input), a log.Fatal process exit (carrying the
offending input), or a runtime panic from an out-of-bounds index. -/
inductive Outcome (α : Type) where
  | ok : α → Outcome α
  | err : String → Outcome α
  | fatal : String → Outcome α
  | panic : Outcome α
deriving DecidableEq, Repr

/-- Embeds func createCandle(ticker string, s []string) (Candle, error).
Each s[i] is an unchecked Go slice index, modelled by List.get?, whose
failure is a panic.  A date parse failure is a returned error; a price
parse failure is log.Fatal; a volume parse failure falls back to 0. -/
def createCandle (ticker : String) (s : List String) : Outcome Candle :=
  match s.get? 0 with
  | none => .panic
  | some f0 =>
  match parseISO f0 with
  | none => .err f0
  | some date =>
  match s.get? 1 with
  | none => .panic
  | some f1 =>
  match parse (clean f1) with
  | none => .fatal f1
  | some vopen =>
  match s.get? 2 with
  | none => .panic
  | some f2 =>
  match parse (clean f2) with
  | none => .fatal f2
  | some vhigh =>
  match s.get? 3 with
  | none => .panic
  | some f3 =>
  match parse (clean f3) with
  | none => .fatal f3
  | some vlow =>
  match s.get? 4 with
  | none => .panic
  | some f4 =>
  match parse (clean f4) with
  | none => .fatal f4
  | some vclose =>
  match s.get? 6 with
  | none => .panic
  | some f6 =>
  let volume : Int := (parseInt64 f6).getD 0
  .ok { Ticker := ticker, Date := date, Open := vopen, Close := vclose,
        High := vhigh, Low := vlow, Volume := volume }

/-- The loop body of createCandles over the data rows (the rows after the
header): each row becomes a candle, and the first row failure aborts the
whole file with that rows failure. -/
def candlesLoop (ticker : String) (rows : List (List String)) : Outcome (List Candle) :=
  match rows with
  | [] => .ok []
  | r :: rs =>
    match createCandle ticker r with
    | .ok c =>
      match candlesLoop ticker rs with
      | .ok cs => .ok (c :: cs)
      | .err e => .err e
      | .fatal e => .fatal e
      | .panic => .panic
    | .err e => .err e
    | .fatal e => .fatal e
    | .panic => .panic

/-- Embeds func createCandles(s string) ([]Candle, error) after the file
has been read into a string matrix: data[1:] panics when the parsed CSV
content has no rows at all, and otherwise the header row is skipped and
the remaining rows are converted in order. -/
def createCandles (ticker : String) (data : List (List String)) : Outcome (List Candle) :=
  match data with
  | [] => .panic
  | _ :: rows => candlesLoop ticker rows

/-- Embeds strings.Split(s, ".")[0]: the ticker is the file name up to the
first dot.  strings.Split never returns an empty slice, so index 0 is
safe; splitting the character list on the dot gives the same pieces. -/
def tickerOf (fname : String) : String :=
  String.mk ((fname.data.splitOn '.').headD [])

/-- A bound SQL parameter: the formatted date string, the ticker string, a
price, or the volume, exactly the values handed to stmt.Exec. -/
inductive Val where
  | s : String → Val
  | q : Rat → Val
  | i : Int → Val
deriving DecidableEq, Repr

/-- The seven values appended to the flat values slice for one candle in
bulkInsert, in source order: formatted date, ticker, open, high, low,
close, volume. -/
def candleValues (c : Candle) : List Val :=
  [.s (formatISO c.Date), .s c.Ticker, .q c.Open, .q c.High, .q c.Low,
   .q c.Close, .i c.Volume]

/-- One prepared statement execution: the SQL text and the flat argument
list bound to its placeholders. -/
structure Stmt where
  text : String
  args : List Val
deriving DecidableEq, Repr

/-- Embeds func insertNCandlesStatement(n int) string: the INSERT header
followed by n comma-separated placeholder groups of seven. -/
def insertNCandlesStatement (n : Nat) : String :=
  (List.range n).foldl
    (fun buf i => buf ++ (if 0 < i then "," else "") ++ "(?,?,?,?,?,?,?)")
    "INSERT INTO candles (date, ticker, open, high, low, close, volume) VALUES "

/-- Embeds func insertNPerTx as the transaction it performs: n executions
of the prepared buf_len-row statement, execution i binding the slice
values[i*buf_len*param_len : (i+1)*buf_len*param_len]. -/
def insertNPerTx (values : List Val) (buf_len param_len n : Nat) : List Stmt :=
  (List.range n).map (fun i =>
    ⟨insertNCandlesStatement buf_len,
     (values.drop (i * buf_len * param_len)).take (buf_len * param_len)⟩)

/-- The loop of func bulkInsert over the candles, carrying the flat values
slice: BUF_LENGTH = 50, PARAM_LENGTH = 7, INSERTS_PER_TX = 10, so a full
transaction of ten 50-row statements is flushed whenever the slice reaches
3500 values, and any non-empty remainder becomes one transaction holding a
single statement sized to the whole remainder. -/
def bulkLoop (candles : List Candle) (values : List Val) : List (List Stmt) :=
  match candles with
  | [] =>
    if 0 < values.length then [insertNPerTx values (values.length / 7) 7 1] else []
  | c :: cs =>
    let values2 := values ++ candleValues c
    if values2.length = 50 * 7 * 10 then
      insertNPerTx values2 50 7 10 :: bulkLoop cs []
    else
      bulkLoop cs values2

/-- Embeds func bulkInsert(db, candles): the list of transactions it
issues, each transaction a list of statement executions. -/
def bulkInsert (candles : List Candle) : List (List Stmt) :=
  bulkLoop candles []

/-- The environment a run observes: the directory listing, the result of
the existence-count query per ticker (none models a query error), the
parsed CSV content per file name (none models a file open or CSV read
error), and whether a statement execution succeeds. -/
structure Env where
  files : List String
  countResult : String → Option Int
  fileData : String → Option (List (List String))
  execOk : String → List Val → Bool

/-- The skip decision of aggregateCandlesFromFiles for one file: skip only
when the count query succeeds with a positive count.  On a query error the
code logs and falls through with count still at its zero value, so the
file is processed. -/
def skipFile (env : Env) (f : String) : Bool :=
  match env.countResult (tickerOf f) with
  | some c => if 0 < c then true else false
  | none => false

/-- Result of the aggregation stage: which files the code went on to open,
and the outcome. -/
structure AggResult where
  opened : List String
  result : Outcome (List Candle)
deriving DecidableEq, Repr

/-- The loop of func aggregateCandlesFromFiles over the directory entries:
skipped files are not opened; the first file whose read or parse fails
aborts the whole aggregation with that failure; candles accumulate in file
order. -/
def aggLoop (env : Env) (files : List String) : AggResult :=
  match files with
  | [] => ⟨[], .ok []⟩
  | f :: fs =>
    if skipFile env f then aggLoop env fs
    else
      match env.fileData f with
      | none => ⟨[f], .err f⟩
      | some data =>
        match createCandles (tickerOf f) data with
        | .ok cs =>
          let rest := aggLoop env fs
          ⟨f :: rest.opened,
           match rest.result with
           | .ok cs2 => .ok (cs ++ cs2)
           | .err e => .err e
           | .fatal e => .fatal e
           | .panic => .panic⟩
        | .err e => ⟨[f], .err e⟩
        | .fatal e => ⟨[f], .fatal e⟩
        | .panic => ⟨[f], .panic⟩

/-- Embeds func aggregateCandlesFromFiles(db) ([]Candle, error) over the
modelled environment. -/
def aggregateCandlesFromFiles (env : Env) : AggResult :=
  aggLoop env env.files

/-- A transaction succeeds when every statement execution in it does. -/
def txOk (env : Env) (tx : List Stmt) : Bool :=
  tx.all (fun st => env.execOk st.text st.args)

/-- Embeds func seed(db, c): the bulk insert succeeds as a whole or fails
as a whole.  An empty candle list issues no transactions and succeeds. -/
def seed (env : Env) (cs : List Candle) : Outcome Unit :=
  if (bulkInsert cs).all (txOk env) then .ok () else .err "insert"

/-- Embeds func run() error: aggregation followed by seeding, each failure
propagating as the result of the run. -/
def run (env : Env) : Outcome Unit :=
  match (aggregateCandlesFromFiles env).result with
  | .ok cs => seed env cs
  | .err e => .err e
  | .fatal e => .fatal e
  | .panic => .panic

/-- The statement executions a run issues: none at all unless the
aggregation stage succeeded. -/
def runStmts (env : Env) : List Stmt :=
  match (aggregateCandlesFromFiles env).result with
  | .ok cs => (bulkInsert cs).flatten
  | .err _ => []
  | .fatal _ => []
  | .panic => []

/-- The two CSV column layouts named by the specification. -/
inductive Layout where
  | A
  | B
deriving DecidableEq, Repr

/-- Modelled from the spec: the layout-configurable candle parser of
section 4.2.  The Layout A branch is the createCandle of src/src/main.go;
the Layout B branch (date(US: MM/DD/YYYY), close, volume, open, high, low,
with currency stripping, volume defaulting to 0 on parse failure, and
field parse failures surfacing as ParseError) belongs to the second source
variant of the repository, which is not under src/, so it is reconstructed
here from the specification text. -/
def createCandleWithLayout (layout : Layout) (ticker : String) (s : List String) :
    Outcome Candle :=
  match layout with
  | .A => createCandle ticker s
  | .B =>
    match s.get? 0 with
    | none => .panic
    | some f0 =>
    match parseUS f0 with
    | none => .err f0
    | some date =>
    match s.get? 1 with
    | none => .panic
    | some f1 =>
    match parse (clean f1) with
    | none => .err f1
    | some vclose =>
    match s.get? 2 with
    | none => .panic
    | some f2 =>
    let volume : Int := (parseInt64 f2).getD 0
    match s.get? 3 with
    | none => .panic
    | some f3 =>
    match parse (clean f3) with
    | none => .err f3
    | some vopen =>
    match s.get? 4 with
    | none => .panic
    | some f4 =>
    match parse (clean f4) with
    | none => .err f4
    | some vhigh =>
    match s.get? 5 with
    | none => .panic
    | some f5 =>
    match parse (clean f5) with
    | none => .err f5
    | some vlow =>
    .ok { Ticker := ticker, Date := date, Open := vopen, Close := vclose,
          High := vhigh, Low := vlow, Volume := volume }

/-- The column list named by the generated INSERT statement, in statement
order. -/
def stmtColumns : List String :=
  ["date", "ticker", "open", "high", "low", "close", "volume"]

/-- The candle field bound for a given statement column name. -/
def colVal (c : Candle) : String → Val
  | "date" => .s (formatISO c.Date)
  | "ticker" => .s c.Ticker
  | "open" => .q c.Open
  | "high" => .q c.High
  | "low" => .q c.Low
  | "close" => .q c.Close
  | "volume" => .i c.Volume
  | _ => .s ""

/-- Total number of statement executions across a list of transactions. -/
def stmtCount (txs : List (List Stmt)) : Nat :=
  (txs.map List.length).sum

/-- Number of rows a statement execution inserts: one row per group of
seven bound values. -/
def stmtRows (st : Stmt) : Nat :=
  st.args.length / 7

/-- A fixed sample candle used to instantiate the batching theorems at
concrete inputs. -/
def sampleCandle : Candle :=
  { Ticker := "T", Date := ⟨2023, 1, 3⟩, Open := 1, Close := 1, High := 1,
    Low := 1, Volume := 0 }

/-- An environment whose existence-count query always fails while its
single file parses cleanly: it exhibits the logged-and-continue behaviour
of the count-query error path. -/
def envCountErr : Env :=
  { files := ["AAPL.csv"],
    countResult := fun _ => none,
    fileData := fun _ => some [["Date"], ["2023-01-03", "1", "2", "1", "2", "x", "10"]],
    execOk := fun _ _ => true }

/-- An environment with one well-formed file whose ticker already has a
positive existence count. -/
def envExisting : Env :=
  { files := ["AAPL.csv"],
    countResult := fun _ => some 3,
    fileData := fun _ => some [["Date"], ["2023-01-03", "1", "2", "1", "2", "x", "10"]],
    execOk := fun _ _ => true }

/-- An environment whose single file contains a data row with a malformed
date. -/
def envBadDate : Env :=
  { files := ["AAPL.csv"],
    countResult := fun _ => some 0,
    fileData := fun _ => some [["Date"], ["not-a-date", "1", "2", "1", "2", "x", "10"]],
    execOk := fun _ _ => true }

/-- An environment in which every stage succeeds. -/
def envAllOk : Env :=
  { files := ["AAPL.csv"],
    countResult := fun _ => some 0,
    fileData := fun _ => some [["Date"], ["2023-01-03", "1", "2", "1", "2", "x", "10"]],
    execOk := fun _ _ => true }

/-- A row with at least seven fields never drives createCandle into an
out-of-bounds access. -/
theorem createCandle_ne_panic (t : String) (s : List String) (h : 7 ≤ s.length) :
    createCandle t s ≠ .panic := by
  rcases s with _ | ⟨a0, _ | ⟨a1, _ | ⟨a2, _ | ⟨a3, _ | ⟨a4, _ | ⟨a5, _ | ⟨a6, rest⟩⟩⟩⟩⟩⟩⟩
  all_goals first
    | (exfalso; simp at h; done)
    | (simp only [createCandle, List.get?]
       repeat' split
       all_goals simp)

/-- A candle produced by createCandle carries the given ticker. -/
theorem createCandle_ok_Ticker (t : String) (s : List String) (c : Candle)
    (h : createCandle t s = .ok c) : c.Ticker = t := by
  simp only [createCandle] at h
  repeat' split at h
  all_goals simp_all
  exact congrArg Candle.Ticker h.symm ▸ rfl

/-- The row loop never panics when every row has at least seven fields. -/
theorem candlesLoop_ne_panic (t : String) (rows : List (List String))
    (h : ∀ r ∈ rows, 7 ≤ r.length) : candlesLoop t rows ≠ .panic := by
  induction rows with
  | nil => simp [candlesLoop]
  | cons r rs ih =>
    have hcc := createCandle_ne_panic t r (h r (by simp))
    have hrs := ih (fun x hx => h x (by simp [hx]))
    simp only [candlesLoop]
    cases hc : createCandle t r with
    | ok c =>
      cases hl : candlesLoop t rs with
      | ok cs => simp
      | err e => simp
      | fatal e => simp
      | panic => exact absurd hl hrs
    | err e => simp
    | fatal e => simp
    | panic => exact absurd hc hcc

/-- A successful row loop means every row parsed, and every produced candle
carries the given ticker. -/
theorem candlesLoop_ok_mem (t : String) (rows : List (List String)) (l : List Candle)
    (h : candlesLoop t rows = .ok l) :
    (∀ r ∈ rows, ∃ c, createCandle t r = .ok c) ∧ (∀ c ∈ l, c.Ticker = t) := by
  induction rows generalizing l with
  | nil =>
    simp only [candlesLoop] at h
    cases h
    simp
  | cons r rs ih =>
    simp only [candlesLoop] at h
    cases hc : createCandle t r with
    | ok c =>
      simp only [hc] at h
      cases hl : candlesLoop t rs with
      | ok cs =>
        rw [hl] at h
        cases h
        obtain ⟨ih1, ih2⟩ := ih cs hl
        refine ⟨?_, ?_⟩
        · intro x hx
          rcases List.mem_cons.mp hx with rfl | hx2
          · exact ⟨c, hc⟩
          · exact ih1 x hx2
        · intro x hx
          rcases List.mem_cons.mp hx with rfl | hx2
          · exact createCandle_ok_Ticker t r x hc
          · exact ih2 x hx2
      | err e => rw [hl] at h; cases h
      | fatal e => rw [hl] at h; cases h
      | panic => rw [hl] at h; cases h
    | err e => simp only [hc] at h; cases h
    | fatal e => simp only [hc] at h; cases h
    | panic => simp only [hc] at h; cases h

/-- C8: the currency-stripping function clean is idempotent, leaves any
string without a dollar sign unchanged, and maps "$12.50" to "12.50". -/
theorem clean_idempotent_spec :
    (∀ s : String, clean (clean s) = clean s) ∧
    (∀ s : String, '$' ∉ s.data → clean s = s) ∧
    clean "$12.50" = "12.50" := by
  refine ⟨fun s => ?_, fun s h => ?_, by decide⟩
  · cases s with
    | mk data => simp [clean, List.filter_filter]
  · cases s with
    | mk data =>
      have hf : data.filter (fun c => c ≠ '$') = data := by
        apply List.filter_eq_self.mpr
        intro a ha
        have hne : a ≠ '$' := fun e => h (e ▸ ha)
        simp [hne]
      simp only [clean, hf]

/-- Witness for C8 at a concrete dollar-free string. -/
theorem clean_idempotent_spec_witness :
    ('$' ∉ "abc".data) ∧ clean "abc" = "abc" :=
  ⟨by decide, clean_idempotent_spec.2.1 "abc" (by decide)⟩

/-- C1: for a valid Layout A row, createCandle routes field 0 through the
ISO date parse into Date, fields 1/2/3/4 through currency stripping and
float parsing into Open/High/Low/Close, and field 6 through integer
parsing into Volume with fallback 0, keeping the given ticker unchanged. -/
theorem createCandle_layoutA_mapping (ticker : String) (s : List String)
    (f0 f1 f2 f3 f4 f6 : String) (d : Date) (po ph pl pc : Rat)
    (h0 : s.get? 0 = some f0) (h1 : s.get? 1 = some f1) (h2 : s.get? 2 = some f2)
    (h3 : s.get? 3 = some f3) (h4 : s.get? 4 = some f4) (h6 : s.get? 6 = some f6)
    (hd : parseISO f0 = some d) (ho : parse (clean f1) = some po)
    (hh : parse (clean f2) = some ph) (hl : parse (clean f3) = some pl)
    (hc : parse (clean f4) = some pc) :
    createCandle ticker s =
      .ok { Ticker := ticker, Date := d, Open := po, High := ph, Low := pl,
            Close := pc, Volume := (parseInt64 f6).getD 0 } := by
  simp only [createCandle, h0, h1, h2, h3, h4, h6, hd, ho, hh, hl, hc]

/-- Witness for C1 at a concrete Layout A row. -/
theorem createCandle_layoutA_mapping_witness :
    createCandle "AAPL"
        ["2023-01-03", "$125.07", "$130.90", "$124.17", "$130.73", "", "112117500"] =
      .ok { Ticker := "AAPL", Date := ⟨2023, 1, 3⟩, Open := Rat.divInt 12507 100,
            High := Rat.divInt 13090 100, Low := Rat.divInt 12417 100,
            Close := Rat.divInt 13073 100,
            Volume := (parseInt64 "112117500").getD 0 } :=
  createCandle_layoutA_mapping "AAPL" _ _ _ _ _ _ _ _ _ _ _ _
    rfl rfl rfl rfl rfl rfl (by decide) (by decide) (by decide) (by decide) (by decide)

/-- C7: a row whose volume field fails integer parsing still yields a
candle, with volume exactly 0 and every other field parsed normally. -/
theorem createCandle_volume_fallback (ticker : String) (s : List String)
    (f0 f1 f2 f3 f4 f6 : String) (d : Date) (po ph pl pc : Rat)
    (h0 : s.get? 0 = some f0) (h1 : s.get? 1 = some f1) (h2 : s.get? 2 = some f2)
    (h3 : s.get? 3 = some f3) (h4 : s.get? 4 = some f4) (h6 : s.get? 6 = some f6)
    (hd : parseISO f0 = some d) (ho : parse (clean f1) = some po)
    (hh : parse (clean f2) = some ph) (hl : parse (clean f3) = some pl)
    (hc : parse (clean f4) = some pc) (hv : parseInt64 f6 = none) :
    createCandle ticker s =
      .ok { Ticker := ticker, Date := d, Open := po, High := ph, Low := pl,
            Close := pc, Volume := 0 } := by
  simp only [createCandle, h0, h1, h2, h3, h4, h6, hd, ho, hh, hl, hc, hv, Option.getD]

/-- Witness for C7 at a concrete row with unparseable volume. -/
theorem createCandle_volume_fallback_witness :
    createCandle "AAPL"
        ["2023-01-03", "$125.07", "$130.90", "$124.17", "$130.73", "", "N/A"] =
      .ok { Ticker := "AAPL", Date := ⟨2023, 1, 3⟩, Open := Rat.divInt 12507 100,
            High := Rat.divInt 13090 100, Low := Rat.divInt 12417 100,
            Close := Rat.divInt 13073 100, Volume := 0 } :=
  createCandle_volume_fallback "AAPL" _ _ _ _ _ _ _ _ _ _ _ _
    rfl rfl rfl rfl rfl rfl (by decide) (by decide) (by decide) (by decide) (by decide)
    (by decide)

/-- C4: the layout-configured parser agrees with the source createCandle
on Layout A, and on a valid Layout B row it routes field 0 through the US
date parse into Date, field 1 into Close, field 2 into Volume with
fallback 0, field 3 into Open, field 4 into High and field 5 into Low. -/
theorem createCandleWithLayout_mapping :
    (∀ (t : String) (s : List String),
        createCandleWithLayout .A t s = createCandle t s) ∧
    (∀ (ticker : String) (s : List String)
        (f0 f1 f2 f3 f4 f5 : String) (d : Date) (po ph pl pc : Rat),
        s.get? 0 = some f0 → s.get? 1 = some f1 → s.get? 2 = some f2 →
        s.get? 3 = some f3 → s.get? 4 = some f4 → s.get? 5 = some f5 →
        parseUS f0 = some d → parse (clean f1) = some pc →
        parse (clean f3) = some po → parse (clean f4) = some ph →
        parse (clean f5) = some pl →
        createCandleWithLayout .B ticker s =
          .ok { Ticker := ticker, Date := d, Open := po, High := ph, Low := pl,
                Close := pc, Volume := (parseInt64 f2).getD 0 }) := by
  refine ⟨fun t s => rfl, ?_⟩
  intro ticker s f0 f1 f2 f3 f4 f5 d po ph pl pc h0 h1 h2 h3 h4 h5 hd hc ho hh hl
  simp only [createCandleWithLayout, h0, h1, h2, h3, h4, h5, hd, hc, ho, hh, hl]

/-- Witness for C4 at a concrete Layout B row. -/
theorem createCandleWithLayout_mapping_witness :
    createCandleWithLayout .B "AAPL"
        ["01/03/2023", "$130.73", "112117500", "$125.07", "$130.90", "$124.17"] =
      .ok { Ticker := "AAPL", Date := ⟨2023, 1, 3⟩, Open := Rat.divInt 12507 100,
            High := Rat.divInt 13090 100, Low := Rat.divInt 12417 100,
            Close := Rat.divInt 13073 100,
            Volume := (parseInt64 "112117500").getD 0 } :=
  createCandleWithLayout_mapping.2 "AAPL" _ _ _ _ _ _ _ _ _ _ _ _
    rfl rfl rfl rfl rfl rfl (by decide) (by decide) (by decide) (by decide) (by decide)

/-- A successful createCandles run means every data row parsed, and every
produced candle carries the ticker derived from the file name. -/
theorem createCandles_ok_mem (t : String) (data : List (List String)) (l : List Candle)
    (h : createCandles t data = .ok l) :
    (∀ r ∈ data.tail, ∃ c, createCandle t r = .ok c) ∧ (∀ c ∈ l, c.Ticker = t) := by
  cases data with
  | nil => simp [createCandles] at h
  | cons hdr rows => exact candlesLoop_ok_mem t rows l h

/-- Any file the aggregation loop went on to open is a file the skip check
let through. -/
theorem aggLoop_opened_skip (env : Env) (files : List String) (f : String)
    (h : f ∈ (aggLoop env files).opened) : skipFile env f = false := by
  induction files with
  | nil => simp [aggLoop] at h
  | cons g gs ih =>
    simp only [aggLoop] at h
    by_cases hs : skipFile env g
    · rw [if_pos hs] at h
      exact ih h
    · rw [if_neg hs] at h
      cases hd : env.fileData g with
      | none =>
        simp only [hd] at h
        simp at h
        subst h
        simpa using hs
      | some d =>
        simp only [hd] at h
        cases hc : createCandles (tickerOf g) d with
        | ok l =>
          simp only [hc] at h
          simp at h
          rcases h with rfl | h2
          · simpa using hs
          · exact ih h2
        | err e =>
          simp only [hc] at h
          simp at h
          subst h
          simpa using hs
        | fatal e =>
          simp only [hc] at h
          simp at h
          subst h
          simpa using hs
        | panic =>
          simp only [hc] at h
          simp at h
          subst h
          simpa using hs

/-- A successful aggregation means every listed file was either skipped by
the existence check or fully read and parsed. -/
theorem aggLoop_ok_files (env : Env) (files : List String) (cs : List Candle)
    (h : (aggLoop env files).result = .ok cs) :
    ∀ f ∈ files, skipFile env f = true ∨
      ∃ d l, env.fileData f = some d ∧ createCandles (tickerOf f) d = .ok l := by
  induction files generalizing cs with
  | nil => simp
  | cons g gs ih =>
    intro f hf
    simp only [aggLoop] at h
    by_cases hs : skipFile env g
    · rw [if_pos hs] at h
      rcases List.mem_cons.mp hf with rfl | hf2
      · exact Or.inl hs
      · exact ih cs h f hf2
    · rw [if_neg hs] at h
      cases hd : env.fileData g with
      | none => simp only [hd] at h; cases h
      | some d =>
        simp only [hd] at h
        cases hc : createCandles (tickerOf g) d with
        | ok l =>
          simp only [hc] at h
          rcases List.mem_cons.mp hf with rfl | hf2
          · exact Or.inr ⟨d, l, hd, hc⟩
          · cases hrest : (aggLoop env gs).result with
            | ok cs2 => exact ih cs2 hrest f hf2
            | err e => simp only [hrest] at h; cases h
            | fatal e => simp only [hrest] at h; cases h
            | panic => simp only [hrest] at h; cases h
        | err e => simp only [hc] at h; cases h
        | fatal e => simp only [hc] at h; cases h
        | panic => simp only [hc] at h; cases h

/-- Every candle a successful aggregation produces carries the ticker of
some non-skipped listed file. -/
theorem aggLoop_ok_tickers (env : Env) (files : List String) (cs : List Candle)
    (h : (aggLoop env files).result = .ok cs) :
    ∀ c ∈ cs, ∃ g ∈ files, skipFile env g = false ∧ c.Ticker = tickerOf g := by
  induction files generalizing cs with
  | nil =>
    simp only [aggLoop] at h
    cases h
    simp
  | cons g gs ih =>
    intro c hc
    simp only [aggLoop] at h
    by_cases hs : skipFile env g
    · rw [if_pos hs] at h
      obtain ⟨g2, hg2, hgs2, ht⟩ := ih cs h c hc
      exact ⟨g2, by simp [hg2], hgs2, ht⟩
    · rw [if_neg hs] at h
      cases hd : env.fileData g with
      | none => simp only [hd] at h; cases h
      | some d =>
        simp only [hd] at h
        cases hcc : createCandles (tickerOf g) d with
        | ok l =>
          simp only [hcc] at h
          cases hrest : (aggLoop env gs).result with
          | ok cs2 =>
            simp only [hrest] at h
            cases h
            rcases List.mem_append.mp hc with hcl | hcr
            · exact ⟨g, by simp, by simpa using hs, (createCandles_ok_mem _ _ _ hcc).2 c hcl⟩
            · obtain ⟨g2, hg2, hgs2, ht⟩ := ih cs2 hrest c hcr
              exact ⟨g2, by simp [hg2], hgs2, ht⟩
          | err e => simp only [hrest] at h; cases h
          | fatal e => simp only [hrest] at h; cases h
          | panic => simp only [hrest] at h; cases h
        | err e => simp only [hcc] at h; cases h
        | fatal e => simp only [hcc] at h; cases h
        | panic => simp only [hcc] at h; cases h

/-- C9 (amended): under the row-shape precondition (at least the header
row, and at least seven fields in every data row) no index access is out
of bounds; a file parsing to zero rows panics; and a data row with fewer
than seven fields panics when its date and price fields parse, though a
short row whose earlier field fails to parse yields a returned error
rather than a panic. -/
theorem ingestion_bounds :
    (∀ (t : String) (data : List (List String)), data ≠ [] →
        (∀ r ∈ data.tail, 7 ≤ r.length) → createCandles t data ≠ .panic) ∧
    (∀ t : String, createCandles t [] = .panic) ∧
    (∀ (t : String) (row : List String) (f0 f1 f2 f3 f4 : String) (d : Date)
        (po ph pl pc : Rat),
        row.length < 7 →
        row.get? 0 = some f0 → row.get? 1 = some f1 → row.get? 2 = some f2 →
        row.get? 3 = some f3 → row.get? 4 = some f4 →
        parseISO f0 = some d → parse (clean f1) = some po →
        parse (clean f2) = some ph → parse (clean f3) = some pl →
        parse (clean f4) = some pc →
        createCandle t row = .panic) := by
  refine ⟨?_, fun t => rfl, ?_⟩
  · intro t data hne hlen
    cases data with
    | nil => exact absurd rfl hne
    | cons hdr rows =>
      simpa [createCandles] using candlesLoop_ne_panic t rows (by simpa using hlen)
  · intro t row f0 f1 f2 f3 f4 d po ph pl pc hlen h0 h1 h2 h3 h4 hd ho hh hl hc
    have h6 : row.get? 6 = none := List.get?_len_le (by omega)
    simp only [createCandle, h0, h1, h2, h3, h4, h6, hd, ho, hh, hl, hc]

/-- C9 counterexample: a data row with fewer than seven fields whose date
field is malformed produces a returned error, not an out-of-bounds panic,
so a short row does not always panic. -/
theorem short_row_err_not_panic :
    (["not-a-date"] : List String).length < 7 ∧
    createCandle "T" ["not-a-date"] = .err "not-a-date" :=
  ⟨by decide, by decide⟩

/-- Witness for C9 at concrete inputs: a well-shaped file does not panic,
the empty parse panics, and a five-field row with parsing date and prices
panics. -/
theorem ingestion_bounds_witness :
    createCandles "T" [["Date"], ["2023-01-03", "1", "2", "0.5", "1.5", "x", "10"]] ≠ .panic ∧
    createCandles "T" [] = .panic ∧
    createCandle "T" ["2023-01-03", "1", "2", "0.5", "1.5"] = .panic :=
  ⟨ingestion_bounds.1 "T" _ (by decide) (by decide),
   ingestion_bounds.2.1 "T",
   ingestion_bounds.2.2 "T" _ "2023-01-03" "1" "2" "0.5" "1.5" ⟨2023, 1, 3⟩
     (Rat.divInt 1 1) (Rat.divInt 2 1) (Rat.divInt 5 10) (Rat.divInt 15 10)
     (by decide) rfl rfl rfl rfl rfl
     (by decide) (by decide) (by decide) (by decide) (by decide)⟩

/-- C6: a malformed date makes createCandle return an error rather than a
default value, that error makes createCandles fail for the whole file, and
a run over an environment containing such a file issues no insert
statements at all. -/
theorem date_error_aborts_file :
    (∀ (t : String) (row : List String) (f0 : String),
        row.get? 0 = some f0 → parseISO f0 = none → createCandle t row = .err f0) ∧
    (∀ (t : String) (data : List (List String)) (row : List String) (f0 : String),
        row ∈ data.tail → row.get? 0 = some f0 → parseISO f0 = none →
        ∀ l, createCandles t data ≠ .ok l) ∧
    (∀ (env : Env) (f : String) (d : List (List String)) (row : List String) (f0 : String),
        f ∈ env.files → skipFile env f = false → env.fileData f = some d →
        row ∈ d.tail → row.get? 0 = some f0 → parseISO f0 = none →
        runStmts env = []) := by
  have part1 : ∀ (t : String) (row : List String) (f0 : String),
      row.get? 0 = some f0 → parseISO f0 = none → createCandle t row = .err f0 := by
    intro t row f0 h0 hd
    simp only [createCandle, h0, hd]
  have part2 : ∀ (t : String) (data : List (List String)) (row : List String) (f0 : String),
      row ∈ data.tail → row.get? 0 = some f0 → parseISO f0 = none →
      ∀ l, createCandles t data ≠ .ok l := by
    intro t data row f0 hmem h0 hd l hok
    obtain ⟨c, hcc⟩ := (createCandles_ok_mem t data l hok).1 row hmem
    rw [part1 t row f0 h0 hd] at hcc
    cases hcc
  refine ⟨part1, part2, ?_⟩
  intro env f d row f0 hf hskip hdata hmem h0 hd
  cases hagg : (aggregateCandlesFromFiles env).result with
  | ok cs =>
    exfalso
    rcases aggLoop_ok_files env env.files cs hagg f hf with hsk | ⟨d2, l, hd2, hok⟩
    · rw [hskip] at hsk
      cases hsk
    · rw [hdata] at hd2
      cases hd2
      exact part2 _ d row f0 hmem h0 hd l hok
  | err e => simp [runStmts, hagg]
  | fatal e => simp [runStmts, hagg]
  | panic => simp [runStmts, hagg]

/-- Witness for C6 at a concrete malformed-date row and environment. -/
theorem date_error_aborts_file_witness :
    createCandle "T" ["not-a-date", "1"] = .err "not-a-date" ∧
    runStmts envBadDate = [] :=
  ⟨date_error_aborts_file.1 "T" _ "not-a-date" rfl (by decide),
   date_error_aborts_file.2.2 envBadDate "AAPL.csv" _
     ["not-a-date", "1", "2", "1", "2", "x", "10"] "not-a-date"
     (by decide) (by decide) rfl (by decide) rfl (by decide)⟩

/-- C3 (amended): a successful run implies no stage other than the
existence-count query failed — every listed file was skipped or fully read
and parsed, and every issued statement executed successfully; by
contraposition any file-read, parse or insert failure terminates the run
with a non-success outcome.  An existence-count query error, by contrast,
is only logged and the ticker proceeds as if absent. -/
theorem run_ok_no_stage_error (env : Env) (h : run env = .ok ()) :
    (∀ f ∈ env.files, skipFile env f = true ∨
       ∃ d cs, env.fileData f = some d ∧ createCandles (tickerOf f) d = .ok cs) ∧
    (∀ st ∈ runStmts env, env.execOk st.text st.args = true) := by
  unfold run at h
  cases hagg : (aggregateCandlesFromFiles env).result with
  | ok cs =>
    simp only [hagg] at h
    constructor
    · exact aggLoop_ok_files env env.files cs hagg
    · intro st hst
      simp only [runStmts, hagg] at hst
      unfold seed at h
      by_cases hall : (bulkInsert cs).all (txOk env) = true
      · obtain ⟨tx, htx, hst2⟩ := List.mem_join.mp hst
        have h1 := List.all_eq_true.mp hall tx htx
        simpa using List.all_eq_true.mp h1 st hst2
      · rw [if_neg hall] at h
        cases h
  | err e => simp only [hagg] at h; cases h
  | fatal e => simp only [hagg] at h; cases h
  | panic => simp only [hagg] at h; cases h

/-- C3 counterexample: in envCountErr the existence-count query errors for
the only ticker, yet the run succeeds: the error is logged and ingestion
continues, instead of surfacing as a non-success run result. -/
theorem count_query_error_does_not_terminate :
    envCountErr.countResult (tickerOf "AAPL.csv") = none ∧ run envCountErr = .ok () :=
  ⟨rfl, by decide⟩

/-- Witness for C3 (amended) at a fully successful environment. -/
theorem run_ok_no_stage_error_witness :
    run envAllOk = .ok () ∧
    (∀ f ∈ envAllOk.files, skipFile envAllOk f = true ∨
       ∃ d cs, envAllOk.fileData f = some d ∧ createCandles (tickerOf f) d = .ok cs) :=
  ⟨by decide, (run_ok_no_stage_error envAllOk (by decide)).1⟩

/-- The values appended for one candle always number seven. -/
theorem candleValues_length (c : Candle) : (candleValues c).length = 7 := by
  simp [candleValues]

/-- A transaction of n statements contains n statements. -/
theorem insertNPerTx_length (v : List Val) (b p n : Nat) :
    (insertNPerTx v b p n).length = n := by
  simp [insertNPerTx]

/-- A one-statement transaction binds the first b*7 values. -/
theorem insertNPerTx_one (v : List Val) (b : Nat) :
    insertNPerTx v b 7 1 = [⟨insertNCandlesStatement b, v.take (b * 7)⟩] := by
  simp [insertNPerTx, List.range_succ]

/-- Concatenating the n consecutive chunks of size m of a list of length
n*m recovers the list. -/
theorem chunksJoin (m : Nat) : ∀ (n : Nat) (v : List Val), v.length = n * m →
    ((List.range n).map (fun i => (v.drop (i * m)).take m)).flatten = v := by
  intro n
  induction n with
  | zero =>
    intro v hv
    simp only [Nat.zero_mul] at hv
    simp [List.eq_nil_of_length_eq_zero hv]
  | succ k ih =>
    intro v hv
    rw [List.range_succ_eq_map]
    simp only [List.map_cons, List.map_map, List.flatten_cons]
    have hmap : (List.range k).map
          ((fun i => (v.drop (i * m)).take m) ∘ Nat.succ) =
        (List.range k).map (fun i => ((v.drop m).drop (i * m)).take m) := by
      apply List.map_congr_left
      intro i hi
      simp only [Function.comp_apply]
      rw [List.drop_drop, Nat.succ_mul, Nat.add_comm]
    rw [hmap, ih (v.drop m) (by rw [List.length_drop, hv, Nat.succ_mul]; omega)]
    simp only [Nat.zero_mul, List.drop_zero]
    exact List.take_append_drop m v

/-- The arguments bound across the statements of one transaction, in
order, are exactly the values handed to it. -/
theorem insertNPerTx_args_flatten (b p n : Nat) (v : List Val)
    (h : v.length = n * (b * p)) :
    ((insertNPerTx v b p n).map Stmt.args).flatten = v := by
  have hsh : ∀ i : Nat, i * b * p = i * (b * p) := fun i => by ring
  simp only [insertNPerTx, List.map_map]
  have hfun : (Stmt.args ∘ fun i =>
        (⟨insertNCandlesStatement b, (v.drop (i * b * p)).take (b * p)⟩ : Stmt)) =
      fun i => (v.drop (i * (b * p))).take (b * p) := by
    funext i
    simp [hsh i]
  rw [hfun]
  exact chunksJoin (b * p) n v h

/-- The values bound across all transactions of the bulk-insert loop are
the carried values followed by the per-candle values in input order. -/
theorem bulkLoop_flatVals (cs : List Candle) : ∀ (k : Nat) (vs : List Val),
    vs.length = 7 * k → k < 500 →
    (((bulkLoop cs vs).flatten).map Stmt.args).flatten = vs ++ cs.flatMap candleValues := by
  induction cs with
  | nil =>
    intro k vs hlen hk
    simp only [bulkLoop]
    by_cases h0 : 0 < vs.length
    · rw [if_pos h0]
      have hargs := insertNPerTx_args_flatten (vs.length / 7) 7 1 vs (by omega)
      simpa using hargs
    · rw [if_neg h0]
      have hnil : vs = [] := List.eq_nil_of_length_eq_zero (by omega)
      simp [hnil]
  | cons c cs2 ih =>
    intro k vs hlen hk
    simp only [bulkLoop]
    by_cases hfull : (vs ++ candleValues c).length = 50 * 7 * 10
    · rw [if_pos hfull]
      simp only [List.flatten_cons, List.map_append, List.flatten_append]
      rw [insertNPerTx_args_flatten 50 7 10 _ (by omega)]
      rw [ih 0 [] rfl (by omega)]
      simp
    · rw [if_neg hfull]
      have hlen2 : (vs ++ candleValues c).length = 7 * (k + 1) := by
        rw [List.length_append, candleValues_length]
        omega
      have hk2 : k + 1 < 500 := by
        by_contra hge
        apply hfull
        rw [List.length_append, candleValues_length]
        omega
      rw [ih (k + 1) _ hlen2 hk2]
      simp

/-- Transaction count of the bulk-insert loop. -/
theorem bulkLoop_txCount (cs : List Candle) : ∀ (k : Nat) (vs : List Val),
    vs.length = 7 * k → k < 500 →
    (bulkLoop cs vs).length = (k + cs.length + 499) / 500 := by
  induction cs with
  | nil =>
    intro k vs hlen hk
    simp only [bulkLoop, List.length_nil]
    by_cases h0 : 0 < vs.length
    · rw [if_pos h0]
      simp only [List.length_singleton]
      omega
    · rw [if_neg h0]
      simp only [List.length_nil]
      omega
  | cons c cs2 ih =>
    intro k vs hlen hk
    simp only [bulkLoop, List.length_cons]
    by_cases hfull : (vs ++ candleValues c).length = 50 * 7 * 10
    · rw [if_pos hfull]
      rw [List.length_append, candleValues_length] at hfull
      simp only [List.length_cons]
      rw [ih 0 [] rfl (by omega)]
      omega
    · rw [if_neg hfull]
      rw [List.length_append, candleValues_length] at hfull
      have hk2 : k + 1 < 500 := by
        by_contra hge
        exact hfull (by omega)
      rw [ih (k + 1) _ (by rw [List.length_append, candleValues_length]; omega) hk2]
      omega

/-- Statement count of the bulk-insert loop. -/
theorem bulkLoop_stmtCount (cs : List Candle) : ∀ (k : Nat) (vs : List Val),
    vs.length = 7 * k → k < 500 →
    stmtCount (bulkLoop cs vs) =
      10 * ((k + cs.length) / 500) + (if (k + cs.length) % 500 = 0 then 0 else 1) := by
  induction cs with
  | nil =>
    intro k vs hlen hk
    simp only [bulkLoop, List.length_nil]
    by_cases h0 : 0 < vs.length
    · rw [if_pos h0]
      simp only [stmtCount, List.map_cons, List.map_nil, List.sum_cons, List.sum_nil,
        insertNPerTx_length]
      rw [if_neg (by omega : ¬ (k + 0) % 500 = 0)]
      omega
    · rw [if_neg h0]
      have hk0 : k = 0 := by omega
      subst hk0
      simp [stmtCount]
  | cons c cs2 ih =>
    intro k vs hlen hk
    simp only [bulkLoop]
    by_cases hfull : (vs ++ candleValues c).length = 50 * 7 * 10
    · rw [if_pos hfull]
      rw [List.length_append, candleValues_length] at hfull
      simp only [stmtCount, List.map_cons, List.sum_cons, insertNPerTx_length]
      have hrest := ih 0 [] rfl (by omega)
      simp only [stmtCount, Nat.zero_add] at hrest
      rw [hrest]
      simp only [List.length_cons]
      by_cases hrem : cs2.length % 500 = 0
      · rw [if_pos hrem, if_pos (by omega)]
        omega
      · rw [if_neg hrem, if_neg (by omega)]
        omega
    · rw [if_neg hfull]
      rw [List.length_append, candleValues_length] at hfull
      have hk2 : k + 1 < 500 := by
        by_contra hge
        exact hfull (by omega)
      rw [ih (k + 1) _ (by rw [List.length_append, candleValues_length]; omega) hk2]
      simp only [List.length_cons]
      have hsum : k + 1 + cs2.length = k + (cs2.length + 1) := by omega
      rw [hsum]

/-- The last statement of the bulk-insert loop binds exactly the remainder
values when the total is not a multiple of 500 candles. -/
theorem bulkLoop_lastStmt (cs : List Candle) : ∀ (k : Nat) (vs : List Val),
    vs.length = 7 * k → k < 500 → (k + cs.length) % 500 ≠ 0 →
    ∃ st, ((bulkLoop cs vs).flatten).getLast? = some st ∧
      st.args.length = 7 * ((k + cs.length) % 500) := by
  induction cs with
  | nil =>
    intro k vs hlen hk hrem
    simp only [List.length_nil, Nat.add_zero] at hrem ⊢
    simp only [bulkLoop]
    rw [if_pos (by omega : 0 < vs.length)]
    rw [insertNPerTx_one]
    have h77 : vs.length / 7 * 7 = vs.length := by omega
    refine ⟨⟨insertNCandlesStatement (vs.length / 7), vs.take (vs.length / 7 * 7)⟩, by simp, ?_⟩
    show (vs.take (vs.length / 7 * 7)).length = 7 * (k % 500)
    rw [h77, List.take_length]
    omega
  | cons c cs2 ih =>
    intro k vs hlen hk hrem
    simp only [bulkLoop]
    by_cases hfull : (vs ++ candleValues c).length = 50 * 7 * 10
    · rw [if_pos hfull]
      rw [List.length_append, candleValues_length] at hfull
      simp only [List.length_cons] at hrem ⊢
      have hrem2 : (0 + cs2.length) % 500 ≠ 0 := by omega
      obtain ⟨st, h1, h2⟩ := ih 0 [] rfl (by omega) hrem2
      refine ⟨st, ?_, ?_⟩
      · rw [List.flatten_cons]
        rw [List.getLast?_append_of_ne_nil _ (fun hnil => by simp [hnil] at h1)]
        exact h1
      · rw [h2]
        omega
    · rw [if_neg hfull]
      rw [List.length_append, candleValues_length] at hfull
      have hk2 : k + 1 < 500 := by
        by_contra hge
        exact hfull (by omega)
      simp only [List.length_cons] at hrem ⊢
      have hsum0 : k + 1 + cs2.length = k + (cs2.length + 1) := by omega
      have hrem2 : ((k + 1) + cs2.length) % 500 ≠ 0 := by rw [hsum0]; exact hrem
      have hlen2 : (vs ++ candleValues c).length = 7 * (k + 1) := by
        rw [List.length_append, candleValues_length]
        omega
      obtain ⟨st, h1, h2⟩ := ih (k + 1) _ hlen2 hk2 hrem2
      have hsum : k + 1 + cs2.length = k + (cs2.length + 1) := by omega
      rw [hsum] at h2
      exact ⟨st, h1, h2⟩

/-- Chunk i of seven values in the flattened per-candle value sequence is
exactly the value group of candle i. -/
theorem flatMap_chunk (candles : List Candle) : ∀ (i : Nat) (h : i < candles.length),
    ((candles.flatMap candleValues).drop (7 * i)).take 7 =
      candleValues (candles.get ⟨i, h⟩) := by
  induction candles with
  | nil =>
    intro i h
    simp at h
  | cons c cs ih =>
    intro i h
    have hflat : (c :: cs).flatMap candleValues =
        candleValues c ++ cs.flatMap candleValues := rfl
    cases i with
    | zero =>
      simp only [Nat.mul_zero, List.drop_zero, hflat]
      conv_lhs => rw [show (7 : Nat) = (candleValues c).length from (candleValues_length c).symm]
      rw [List.take_left]
      rfl
    | succ j =>
      rw [hflat]
      have hsucc : 7 * (j + 1) = (candleValues c).length + 7 * j := by
        rw [candleValues_length]
        ring
      rw [hsucc, List.drop_append]
      exact ih j (by simpa using h)

/-- C2 (amended): with batch size 50 and 10 statements per transaction,
bulkInsert issues 10 * (N / 500) statements plus one remainder statement
when N mod 500 is nonzero, across ceil(N / 500) transactions, and that
nonzero remainder N mod 500 is sent as a single final statement of exactly
N mod 500 rows — even when the remainder exceeds one batch of 50. -/
theorem bulkInsert_batching (candles : List Candle) :
    (bulkInsert candles).length = (candles.length + 499) / 500 ∧
    stmtCount (bulkInsert candles) =
      10 * (candles.length / 500) + (if candles.length % 500 = 0 then 0 else 1) ∧
    (candles.length % 500 ≠ 0 →
      ∃ st, ((bulkInsert candles).flatten).getLast? = some st ∧
        stmtRows st = candles.length % 500) := by
  refine ⟨?_, ?_, ?_⟩
  · simpa [bulkInsert] using bulkLoop_txCount candles 0 [] rfl (by omega)
  · simpa [bulkInsert] using bulkLoop_stmtCount candles 0 [] rfl (by omega)
  · intro hrem
    obtain ⟨st, h1, h2⟩ :=
      bulkLoop_lastStmt candles 0 [] rfl (by omega) (by simpa using hrem)
    refine ⟨st, by simpa [bulkInsert] using h1, ?_⟩
    simp only [Nat.zero_add] at h2
    simp only [stmtRows, h2]
    omega

/-- C2 counterexample: at N = 51 the code issues one statement, not the
ceil(N/B) = 2 statements the claim requires (the 51-candle remainder goes
out as a single 51-row statement). -/
theorem batching_claim_false_at_51 :
    (List.replicate 51 sampleCandle).length = 51 ∧
    stmtCount (bulkInsert (List.replicate 51 sampleCandle)) = 1 ∧
    stmtCount (bulkInsert (List.replicate 51 sampleCandle)) ≠ (51 + 50 - 1) / 50 := by
  have h := bulkLoop_stmtCount (List.replicate 51 sampleCandle) 0 [] rfl (by omega)
  simp only [List.length_replicate, Nat.zero_add] at h
  norm_num at h
  have h2 : stmtCount (bulkInsert (List.replicate 51 sampleCandle)) = 1 := h
  refine ⟨by simp, h2, ?_⟩
  rw [h2]
  norm_num

/-- Witness for C2 (amended) at three candles: one transaction whose final
statement has three rows. -/
theorem bulkInsert_batching_witness :
    ((List.replicate 3 sampleCandle).length % 500 ≠ 0) ∧
    ∃ st, ((bulkInsert (List.replicate 3 sampleCandle)).flatten).getLast? = some st ∧
      stmtRows st = (List.replicate 3 sampleCandle).length % 500 :=
  ⟨by norm_num, (bulkInsert_batching (List.replicate 3 sampleCandle)).2.2 (by norm_num)⟩

/-- C10: the flattened bound arguments of the issued statements are the
per-candle seven-value groups in input order; chunk i of seven is candle i
in the statement column order (date, ticker, open, high, low, close,
volume, the date formatted YYYY-MM-DD); the per-candle group is the column
list mapped through the field binding; and the statement text names the
columns in exactly that order. -/
theorem bind_order (candles : List Candle) (i : Nat) (h : i < candles.length) :
    (((bulkInsert candles).flatten).map Stmt.args).flatten = candles.flatMap candleValues ∧
    ((candles.flatMap candleValues).drop (7 * i)).take 7 =
      candleValues (candles.get ⟨i, h⟩) ∧
    candleValues (candles.get ⟨i, h⟩) =
      stmtColumns.map (colVal (candles.get ⟨i, h⟩)) ∧
    insertNCandlesStatement 1 =
      "INSERT INTO candles (" ++ String.intercalate ", " stmtColumns ++
        ") VALUES " ++ "(?,?,?,?,?,?,?)" := by
  refine ⟨?_, flatMap_chunk candles i h, ?_, by decide⟩
  · simpa [bulkInsert] using bulkLoop_flatVals candles 0 [] rfl (by omega)
  · simp [stmtColumns, colVal, candleValues]

/-- Witness for C10 at three sample candles and index 2. -/
theorem bind_order_witness :
    (2 : Nat) < (List.replicate 3 sampleCandle).length ∧
    (((List.replicate 3 sampleCandle).flatMap candleValues).drop (7 * 2)).take 7 =
      candleValues ((List.replicate 3 sampleCandle).get ⟨2, by simp⟩) :=
  ⟨by simp, (bind_order (List.replicate 3 sampleCandle) 2 (by simp)).2.1⟩

/-- C5: a ticker with a positive existence count is skipped entirely: its
file is never opened, and no candle of a successful aggregation carries
its ticker, so no insert binds values for it. -/
theorem skip_existing_ticker (env : Env) (f : String) (c : Int)
    (hf : f ∈ env.files) (hc : env.countResult (tickerOf f) = some c) (hpos : 0 < c) :
    f ∉ (aggregateCandlesFromFiles env).opened ∧
    (∀ cs, (aggregateCandlesFromFiles env).result = .ok cs →
      ∀ cd ∈ cs, cd.Ticker ≠ tickerOf f) ∧
    (∀ cs, (aggregateCandlesFromFiles env).result = .ok cs →
      ((runStmts env).map Stmt.args).flatten = cs.flatMap candleValues) := by
  have hskip : skipFile env f = true := by simp [skipFile, hc, hpos]
  refine ⟨?_, ?_, ?_⟩
  · intro hmem
    have hfalse := aggLoop_opened_skip env env.files f hmem
    rw [hskip] at hfalse
    cases hfalse
  · intro cs hcs cd hcd heq
    obtain ⟨g, hg, hgs, ht⟩ := aggLoop_ok_tickers env env.files cs hcs cd hcd
    have htg : tickerOf g = tickerOf f := ht.symm.trans heq
    have hgt : skipFile env g = true := by simp [skipFile, htg, hc, hpos]
    rw [hgt] at hgs
    cases hgs
  · intro cs hcs
    simp only [runStmts, hcs]
    simpa [bulkInsert] using bulkLoop_flatVals cs 0 [] rfl (by omega)

/-- Witness for C5 at a concrete environment whose ticker already has a
positive count. -/
theorem skip_existing_ticker_witness :
    "AAPL.csv" ∈ envExisting.files ∧
    envExisting.countResult (tickerOf "AAPL.csv") = some 3 ∧ ((0 : Int) < 3) ∧
    "AAPL.csv" ∉ (aggregateCandlesFromFiles envExisting).opened :=
  ⟨by decide, rfl, by decide,
   (skip_existing_ticker envExisting "AAPL.csv" 3 (by decide) rfl (by decide)).1⟩

end BirdSeed

